import Mathlib

/-! Verification of the extrinsic/call inspection model of the repository:
the extractState function of the Call component (packages/react-components,
provided as src/unnamed/part_001) and the no-proposal rendering branch of
ProposedAction (packages/react-components/src/ProposedAction.tsx).
TypeScript values are shallowly embedded: the IExtrinsic | IMethod union
becomes a record whose signature-related fields are optional, JS undefined
becomes Option.none, and an unguarded property read on undefined (a thrown
TypeError) becomes Except.error. -/

namespace Apps

/-- An opaque decoded codec value, as produced by the external
chain-metadata-aware codec; its identity is all that matters here. -/
structure Codec where
  val : String
  deriving DecidableEq, Repr

/-- One declared argument descriptor of value.meta.args: a name and a type,
both rendered with toString in the source. -/
structure MetaArg where
  name : String
  type : String
  deriving DecidableEq, Repr

/-- The call metadata object value.meta with its declared argument list. -/
structure Meta where
  args : List MetaArg
  deriving DecidableEq, Repr

/-- Result of getTypeDef from the external @polkadot/types package: a parsed
type definition. Modelled as a record keeping the source type string; only
its application, never its internals, matters to the claims. -/
structure TypeDef where
  info : String
  deriving DecidableEq, Repr

/-- getTypeDef from @polkadot/types (external to the repository). -/
def getTypeDef (t : String) : TypeDef := ⟨t⟩

/-- The low-level multiSignature wrapper reached through
value._raw?.signature?.multiSignature: either an Enum, a tagged variant
exposing its discriminant tag through .type, or some non-Enum object. -/
inductive RawMultiSignature where
  | enumTag (tag : String)
  | notEnum
  deriving DecidableEq, Repr

/-- The fields present exactly on IExtrinsic values and absent on a bare
IMethod: the isSigned flag, the signature bytes (signature.toHex renders
them), and the optional raw multiSignature wrapper. -/
structure SignatureFields where
  isSigned : Bool
  sigBytes : List Nat
  rawMulti : Option RawMultiSignature
  deriving DecidableEq, Repr

/-- An IExtrinsic or IMethod as extractState sees it. meta is optional
because the JS runtime admits malformed values whose metadata is absent,
even though the TS type promises it; sig is the signature field whose
truthiness isExtrinsic tests, present exactly on extrinsics. -/
structure CallValue where
  meta : Option Meta
  args : List Codec
  hashBytes : List Nat
  sig : Option SignatureFields
  deriving DecidableEq, Repr

/-- Lowercase hexadecimal digit character for d below 16, as in
@polkadot/util. -/
def hexDigit (d : Nat) : Char :=
  if d < 10 then Char.ofNat (48 + d) else Char.ofNat (87 + d)

/-- Two-character lowercase hex rendering of one byte. -/
def byteToHex (b : Nat) : String :=
  String.mk [hexDigit (b / 16 % 16), hexDigit (b % 16)]

/-- u8aToHex from @polkadot/util, the rendering used by Codec.toHex: the 0x
marker followed by two lowercase hex digits per byte. -/
def u8aToHex (bytes : List Nat) : String :=
  "0x" ++ String.join (bytes.map byteToHex)

/-- A display parameter of the Extracted record: declared name plus parsed
type descriptor. -/
structure Param where
  name : String
  type : TypeDef
  deriving DecidableEq, Repr

/-- A display value of the Extracted record: validity flag plus the decoded
argument value. -/
structure Value where
  isValid : Bool
  value : Codec
  deriving DecidableEq, Repr

/-- ComponentMap from @polkadot/react-params/types: maps type names to
rendering components; modelled as the list of type names it overrides. -/
structure ComponentMap where
  overriddenTypes : List String
  deriving DecidableEq, Repr

/-- The Extracted record built by extractState. TS null and undefined both
become Option.none. -/
structure Extracted where
  hash : Option String
  overrides : Option ComponentMap
  params : List Param
  signature : Option String
  signatureType : Option String
  values : List Value
  deriving DecidableEq, Repr

/-- Modelled from the spec: balanceCalls, the static registry of known
balance-denominated call names exported by ./constants, a repository module
not among the provided sources ("a static mapping from call name to an
override map ...; entries are fixed per deployment and not user-configurable
at runtime"). Representative entries stand for the deployment-fixed list. -/
def balanceCalls : List String :=
  ["balances.forceTransfer", "balances.transfer", "balances.transferKeepAlive"]

/-- Modelled from the spec: balanceCallsOverrides, the single override map
from ./constants shared by every registry entry, "indicating which parameter
positions should render as currency amounts rather than raw scalars". -/
def balanceCallsOverrides : ComponentMap :=
  ⟨["Amount", "Balance"]⟩

/-- isExtrinsic: the source tests truthiness of the value.signature field,
which a bare method lacks (undefined, hence falsy) and an extrinsic always
carries as a truthy object. -/
def isExtrinsic (value : CallValue) : Bool :=
  value.sig.isSome

/-- getRawSignature: the optional chain value._raw?.signature?.multiSignature,
collapsed through Option.bind; undefined at any step yields none. -/
def getRawSignature (value : CallValue) : Option RawMultiSignature :=
  value.sig.bind SignatureFields.rawMulti

/-- value.isSigned, a field of IExtrinsic; the source only reads it under the
isExtrinsic guard, so the undefined read on a method (falsy) is false here. -/
def valueIsSigned (value : CallValue) : Bool :=
  (value.sig.map SignatureFields.isSigned).getD false

/-- The bytes of value.signature on an IExtrinsic; only read under the
isExtrinsic guard. -/
def valueSigBytes (value : CallValue) : List Nat :=
  (value.sig.map SignatureFields.sigBytes).getD []

/-- extractState, translated clause by clause from the source. The source
reads value.meta.args with no error handling, so a value whose metadata is
absent throws a TypeError in the JS runtime, modelled as Except.error. In
the overrides clause, callName && balanceCalls.includes(callName)
short-circuits on a falsy callName: both undefined and the empty string are
falsy, hence the bne test. The optional withHash and withSignature booleans
collapse undefined to false. The source initialises signature and
signatureType to null and assigns both inside one if; this is rendered as
two conditionals sharing the withSig guard. -/
def extractState (value : CallValue) (withHash withSignature : Bool)
    (callName : Option String) : Except String Extracted :=
  let overrides : Option ComponentMap :=
    match callName with
    | some c => if c != "" && balanceCalls.contains c then some balanceCallsOverrides else none
    | none => none
  match value.meta with
  | none => Except.error "TypeError: cannot read properties of undefined"
  | some m =>
    let params : List Param :=
      m.args.map fun a => { name := a.name, type := getTypeDef a.type }
    let values : List Value :=
      value.args.map fun v => { isValid := true, value := v }
    let hash : Option String :=
      if withHash then some (u8aToHex value.hashBytes) else none
    let withSig : Bool := withSignature && isExtrinsic value && valueIsSigned value
    let signature : Option String :=
      if withSig then some (u8aToHex (valueSigBytes value)) else none
    let signatureType : Option String :=
      if withSig then
        match getRawSignature value with
        | some (RawMultiSignature.enumTag t) => some t
        | _ => none
      else none
    Except.ok { hash := hash, overrides := overrides, params := params,
                signature := signature, signatureType := signatureType,
                values := values }

/-- The initial Extracted state the Call component installs with useState
before the first extraction effect runs: empty parameter list, every
optional field null. -/
def initialExtracted : Extracted :=
  { hash := none, overrides := none, params := [], signature := none,
    signatureType := none, values := [] }

/-- The idNumber prop of ProposedAction, typed BN | number | string |
undefined in the source; BN and number collapse to a natural number and the
undefined case is Option.none at the use site. -/
inductive IdNumber where
  | num (n : Nat)
  | str (s : String)
  deriving DecidableEq, Repr

/-- Decimal digit characters of n, least significant first. Written with a
fuel argument so it reduces in the kernel; the fuel n + 1 always suffices. -/
def natDigitsRevAux : Nat → Nat → List Char
  | _, 0 => []
  | n, fuel + 1 =>
    if n < 10 then [Char.ofNat (48 + n)]
    else Char.ofNat (48 + n % 10) :: natDigitsRevAux (n / 10) fuel

/-- Decimal digit characters of n, least significant first. -/
def natDigitsRev (n : Nat) : List Char :=
  natDigitsRevAux n (n + 1)

/-- Helper of formatNumber: walk the least-significant-first digit list and
emit a comma before each digit that starts a new group of three; k counts
the digits already emitted in the current group. -/
def commaRev : List Char → Nat → List Char
  | [], _ => []
  | d :: rest, k =>
    if k == 3 then ',' :: d :: commaRev rest 1
    else d :: commaRev rest (k + 1)

/-- formatNumber from the external @polkadot/util package, the
locale/thousands-grouping formatter used by ProposedAction: decimal digits
grouped in threes from the right, groups separated by commas. -/
def formatNumber (n : Nat) : String :=
  String.mk ((commaRev (natDigitsRev n) 0).reverse)

/-- The stringId computed by ProposedAction:
isString(idNumber) || isUndefined(idNumber) ? idNumber : formatNumber(idNumber). -/
def stringIdOf (idNumber : Option IdNumber) : Option String :=
  match idNumber with
  | none => none
  | some (IdNumber.str s) => some s
  | some (IdNumber.num n) => some (formatNumber n)

/-- The fixed no-execution-details message; the translation key resolves to
itself in the default locale. -/
def noDetailsMessage : String := "No execution details available for this proposal"

/-- The text ProposedAction renders. When proposal is absent (null or
undefined, both falsy), the component renders
stringId ? \x7b#stringId: \x7d : empty, followed by the fixed message; a JS
string is falsy exactly when it is empty, hence the bne test. When a
proposal is present the component delegates to CallExpander (out of scope
here), modelled as none. -/
def proposedActionText (proposal : Option Codec) (idNumber : Option IdNumber) :
    Option String :=
  match proposal with
  | some _ => none
  | none =>
    let stringId := stringIdOf idNumber
    some ((match stringId with
           | some s => if s != "" then "#" ++ s ++ ": " else ""
           | none => "") ++ noDetailsMessage)

/-- Sample metadata: the two-argument transfer scenario of the spec. -/
def sampleMeta : Meta := ⟨[⟨"dest", "AccountId"⟩, ⟨"value", "Balance"⟩]⟩

/-- Sample unsigned method value with two declared and two actual
arguments. -/
def sampleTransfer : CallValue :=
  { meta := some sampleMeta
  , args := [⟨"5GrwvaEF"⟩, ⟨"500"⟩]
  , hashBytes := [171, 205]
  , sig := none }

/-- Sample signed extrinsic over the same call, whose raw multiSignature
wrapper is a tagged Enum variant. -/
def sampleSigned : CallValue :=
  { meta := some sampleMeta
  , args := [⟨"5GrwvaEF"⟩, ⟨"500"⟩]
  , hashBytes := [171, 205]
  , sig := some { isSigned := true, sigBytes := [1, 2, 255],
                  rawMulti := some (RawMultiSignature.enumTag "Ed25519") } }

/-- Sample malformed value whose declared-argument metadata is absent. -/
def sampleNoMeta : CallValue :=
  { meta := none, args := [], hashBytes := [], sig := none }

/-- The record extractState yields on sampleTransfer with both flags off and
no call name. -/
def sampleTransferExtracted : Extracted :=
  { hash := none
  , overrides := none
  , params := [⟨"dest", getTypeDef "AccountId"⟩, ⟨"value", getTypeDef "Balance"⟩]
  , signature := none
  , signatureType := none
  , values := [⟨true, ⟨"5GrwvaEF"⟩⟩, ⟨true, ⟨"500"⟩⟩] }

/-- The record extractState yields on sampleSigned with withSignature on. -/
def sampleSignedExtracted : Extracted :=
  { sampleTransferExtracted with
    signature := some (u8aToHex [1, 2, 255])
  , signatureType := some "Ed25519" }

/-- The record extractState yields on sampleTransfer with a registry call
name supplied. -/
def sampleBalanceExtracted : Extracted :=
  { sampleTransferExtracted with overrides := some balanceCallsOverrides }

/-- The record extractState yields on sampleTransfer with withHash on. -/
def sampleHashExtracted : Extracted :=
  { sampleTransferExtracted with hash := some (u8aToHex [171, 205]) }

/-- Unfolding equation of extractState on any value whose declared-argument
metadata is present: the returned record, field by field. -/
theorem extractState_meta_eq
    (value : CallValue) (withHash withSignature : Bool) (callName : Option String)
    (m : Meta) (hm : value.meta = some m) :
    extractState value withHash withSignature callName = Except.ok
      { hash := if withHash then some (u8aToHex value.hashBytes) else none
      , overrides := match callName with
          | some c =>
            if c != "" && balanceCalls.contains c then some balanceCallsOverrides else none
          | none => none
      , params := m.args.map fun a => { name := a.name, type := getTypeDef a.type }
      , signature :=
          if withSignature && isExtrinsic value && valueIsSigned value then
            some (u8aToHex (valueSigBytes value))
          else none
      , signatureType :=
          if withSignature && isExtrinsic value && valueIsSigned value then
            match getRawSignature value with
            | some (RawMultiSignature.enumTag t) => some t
            | _ => none
          else none
      , values := value.args.map fun v => { isValid := true, value := v } } := by
  unfold extractState
  rw [hm]

/-- Extraction only succeeds when the declared-argument metadata is
present. -/
theorem extractState_ok_meta
    (value : CallValue) (withHash withSignature : Bool) (callName : Option String)
    (e : Extracted)
    (h : extractState value withHash withSignature callName = Except.ok e) :
    ∃ m, value.meta = some m := by
  cases hmeta : value.meta with
  | none =>
    unfold extractState at h
    rw [hmeta] at h
    simp at h
  | some m => exact ⟨m, rfl⟩

/-- The overrides clause of extractState as a standalone function: the
guarded registry lookup of the source. -/
def overridesOf (callName : Option String) : Option ComponentMap :=
  match callName with
  | some c =>
    if c != "" && balanceCalls.contains c then some balanceCallsOverrides else none
  | none => none

/-- The overrides field of any successful extraction, in the form the code
computes it. -/
theorem extractState_ok_overrides
    (value : CallValue) (withHash withSignature : Bool) (callName : Option String)
    (e : Extracted)
    (h : extractState value withHash withSignature callName = Except.ok e) :
    e.overrides = overridesOf callName := by
  obtain ⟨m, hm⟩ := extractState_ok_meta value withHash withSignature callName e h
  rw [extractState_meta_eq value withHash withSignature callName m hm] at h
  injection h with h
  subst h
  rfl

/-- No name in the modelled registry is the empty string, so the truthiness
guard of the source never masks a registry hit. -/
theorem balanceCalls_mem_ne_empty : ∀ c ∈ balanceCalls, c ≠ "" := by decide

/-- The digit-list helper never returns the empty list when given fuel. -/
theorem natDigitsRevAux_ne_nil (n fuel : Nat) : natDigitsRevAux n (fuel + 1) ≠ [] := by
  simp only [natDigitsRevAux]
  split <;> simp

/-- The digit list of a natural number is never empty. -/
theorem natDigitsRev_ne_nil (n : Nat) : natDigitsRev n ≠ [] :=
  natDigitsRevAux_ne_nil n n

/-- Comma grouping of a nonempty digit list is nonempty. -/
theorem commaRev_ne_nil (d : Char) (rest : List Char) (k : Nat) :
    commaRev (d :: rest) k ≠ [] := by
  simp only [commaRev]
  split <;> simp

/-- The thousands-grouped rendering of a natural number is never the empty
string, hence always truthy in the source. -/
theorem formatNumber_ne_empty (n : Nat) : formatNumber n ≠ "" := by
  intro hcon
  have hdata : (commaRev (natDigitsRev n) 0).reverse = ([] : List Char) :=
    congrArg String.data hcon
  have hnil : commaRev (natDigitsRev n) 0 = [] := by
    simpa using congrArg List.reverse hdata
  obtain ⟨d, rest, hd⟩ := List.exists_cons_of_ne_nil (natDigitsRev_ne_nil n)
  rw [hd] at hnil
  exact commaRev_ne_nil d rest 0 hnil

/-- C1: for every input value whose declared-argument metadata is present
and whose actual arguments align with the declared ones (the codec input
contract), and for every combination of withHash, withSignature and
callName, the Extracted record returned by extractState has params and
values of equal length, and this common length is the number of declared
arguments. -/
theorem extractState_params_values_aligned
    (value : CallValue) (withHash withSignature : Bool) (callName : Option String)
    (m : Meta) (e : Extracted)
    (hm : value.meta = some m)
    (halign : value.args.length = m.args.length)
    (h : extractState value withHash withSignature callName = Except.ok e) :
    e.params.length = e.values.length ∧ e.params.length = m.args.length := by
  rw [extractState_meta_eq value withHash withSignature callName m hm] at h
  injection h with h
  subst h
  refine ⟨?_, ?_⟩ <;> simp [halign]

/-- Witness for C1 at the two-argument transfer scenario of the spec. -/
theorem extractState_params_values_aligned_witness :
    sampleTransferExtracted.params.length = sampleTransferExtracted.values.length ∧
    sampleTransferExtracted.params.length = sampleMeta.args.length :=
  extractState_params_values_aligned sampleTransfer false false none sampleMeta
    sampleTransferExtracted rfl rfl rfl

/-- C2 counterexample: on a concrete input whose declared-argument metadata
is absent, extractState does not return an Extracted record at all — the
unguarded value.meta.args read throws a TypeError, modelled as
Except.error — so it neither returns an empty parameter list nor invokes
any onError callback itself. -/
theorem extractState_missing_meta_throws :
    extractState sampleNoMeta false false none
      = Except.error "TypeError: cannot read properties of undefined" ∧
    (extractState sampleNoMeta false false none).toOption = none :=
  ⟨rfl, rfl⟩

/-- C2 amended: extraction never raises on any input whose declared-argument
metadata is present, which is every well-typed IExtrinsic or IMethod; when
the metadata is absent, extractState propagates the exception instead of
returning an empty parameter list, and the onError callback is not invoked
by extractState itself — the Call component merely forwards it to the
downstream Params renderer while starting from initialExtracted, whose
parameter list is empty. -/
theorem extractState_total_on_present_meta
    (value : CallValue) (withHash withSignature : Bool) (callName : Option String)
    (m : Meta) (hm : value.meta = some m) :
    (extractState value withHash withSignature callName).toOption.isSome = true
      ∧ initialExtracted.params = [] := by
  rw [extractState_meta_eq value withHash withSignature callName m hm]
  exact ⟨rfl, rfl⟩

/-- Witness for C2 amended at the sample transfer method. -/
theorem extractState_total_on_present_meta_witness :
    (extractState sampleTransfer false false none).toOption.isSome = true
      ∧ initialExtracted.params = [] :=
  extractState_total_on_present_meta sampleTransfer false false none sampleMeta rfl

/-- C3: on a signed extrinsic with withSignature true, the extracted
signature is the hex rendering of the signature bytes; the signatureType is
the discriminant tag of the raw multiSignature wrapper when that wrapper is
a tagged Enum variant, and null when the wrapper is absent or not an Enum,
the signature staying the hex rendering either way. -/
theorem extractState_signature_of_signed
    (value : CallValue) (withHash : Bool) (callName : Option String)
    (sp : SignatureFields) (e : Extracted)
    (hs : value.sig = some sp) (hsigned : sp.isSigned = true)
    (h : extractState value withHash true callName = Except.ok e) :
    e.signature = some (u8aToHex sp.sigBytes) ∧
    (∀ t, sp.rawMulti = some (RawMultiSignature.enumTag t) → e.signatureType = some t) ∧
    ((sp.rawMulti = none ∨ sp.rawMulti = some RawMultiSignature.notEnum) →
      e.signatureType = none) := by
  obtain ⟨m, hm⟩ := extractState_ok_meta value withHash true callName e h
  rw [extractState_meta_eq value withHash true callName m hm] at h
  injection h with h
  subst h
  have hext : isExtrinsic value = true := by simp [isExtrinsic, hs]
  have hsig : valueIsSigned value = true := by simp [valueIsSigned, hs, hsigned]
  have hbytes : valueSigBytes value = sp.sigBytes := by simp [valueSigBytes, hs]
  have hraw : getRawSignature value = sp.rawMulti := by simp [getRawSignature, hs]
  refine ⟨?_, ?_, ?_⟩
  · simp [hext, hsig, hbytes]
  · intro t ht
    simp [hext, hsig, hraw, ht]
  · rintro (ht | ht) <;> simp [hext, hsig, hraw, ht]

/-- Witness for C3 at the sample signed extrinsic, whose wrapper is the
Ed25519 variant; the rendered signature is the concrete hex string. -/
theorem extractState_signature_of_signed_witness :
    sampleSignedExtracted.signature = some (u8aToHex [1, 2, 255]) ∧
    sampleSignedExtracted.signatureType = some "Ed25519" ∧
    u8aToHex [1, 2, 255] = "0x0102ff" := by
  have h := extractState_signature_of_signed sampleSigned false none
    { isSigned := true, sigBytes := [1, 2, 255],
      rawMulti := some (RawMultiSignature.enumTag "Ed25519") }
    sampleSignedExtracted rfl rfl rfl
  exact ⟨h.1, h.2.1 "Ed25519" rfl, rfl⟩

/-- C4: on an unsigned method, which carries no signature field, both
signature and signatureType come back null, for every value of
withSignature, withHash and callName. -/
theorem extractState_unsigned_no_signature
    (value : CallValue) (withHash withSignature : Bool) (callName : Option String)
    (e : Extracted) (hs : value.sig = none)
    (h : extractState value withHash withSignature callName = Except.ok e) :
    e.signature = none ∧ e.signatureType = none := by
  obtain ⟨m, hm⟩ := extractState_ok_meta value withHash withSignature callName e h
  rw [extractState_meta_eq value withHash withSignature callName m hm] at h
  injection h with h
  subst h
  have hext : isExtrinsic value = false := by simp [isExtrinsic, hs]
  constructor <;> simp [hext]

/-- Witness for C4 at the sample unsigned method with withSignature on. -/
theorem extractState_unsigned_no_signature_witness :
    sampleTransferExtracted.signature = none ∧
    sampleTransferExtracted.signatureType = none :=
  extractState_unsigned_no_signature sampleTransfer false true none
    sampleTransferExtracted rfl rfl

/-- C5: when the supplied callName is a member of the balance-call registry
the extracted overrides field is that registry override map; when the
supplied name is not in the registry, or no name is supplied, the overrides
field is null. -/
theorem extractState_overrides_registry
    (value : CallValue) (withHash withSignature : Bool) (callName : Option String)
    (e : Extracted)
    (h : extractState value withHash withSignature callName = Except.ok e) :
    (∀ c, callName = some c → c ∈ balanceCalls →
      e.overrides = some balanceCallsOverrides) ∧
    (∀ c, callName = some c → c ∉ balanceCalls → e.overrides = none) ∧
    (callName = none → e.overrides = none) := by
  have r := extractState_ok_overrides value withHash withSignature callName e h
  refine ⟨?_, ?_, ?_⟩
  · rintro c rfl hmem
    have hne : (c != "") = true := bne_iff_ne.mpr (balanceCalls_mem_ne_empty c hmem)
    rw [r]
    simp [overridesOf, hne, hmem]
  · rintro c rfl hmem
    rw [r]
    simp [overridesOf, hmem]
  · rintro rfl
    rw [r]
    rfl

/-- Witness for C5: a registry name yields the shared override map, a
non-registry name and an absent name yield null. -/
theorem extractState_overrides_registry_witness :
    sampleBalanceExtracted.overrides = some balanceCallsOverrides ∧
    sampleTransferExtracted.overrides = none := by
  refine ⟨?_, ?_⟩
  · exact (extractState_overrides_registry sampleTransfer false false
      (some "balances.transfer") sampleBalanceExtracted rfl).1
      "balances.transfer" rfl (by decide)
  · exact (extractState_overrides_registry sampleTransfer false false
      (some "system.remark") sampleTransferExtracted rfl).2.1
      "system.remark" rfl (by decide)

/-- C6: the extracted hash field is null when withHash is false, and the
0x-prefixed hexadecimal rendering of the content hash bytes when withHash
is true. -/
theorem extractState_hash_flag
    (value : CallValue) (withHash withSignature : Bool) (callName : Option String)
    (e : Extracted)
    (h : extractState value withHash withSignature callName = Except.ok e) :
    e.hash = if withHash then some (u8aToHex value.hashBytes) else none := by
  obtain ⟨m, hm⟩ := extractState_ok_meta value withHash withSignature callName e h
  rw [extractState_meta_eq value withHash withSignature callName m hm] at h
  injection h with h
  subst h
  rfl

/-- Witness for C6: with the flag on, the sample hash bytes ab cd render as
the prefixed hex string; with the flag off the field is null. -/
theorem extractState_hash_flag_witness :
    sampleHashExtracted.hash = some (u8aToHex [171, 205]) ∧
    u8aToHex [171, 205] = "0xabcd" ∧
    sampleTransferExtracted.hash = none := by
  have hon := extractState_hash_flag sampleTransfer true false none
    sampleHashExtracted rfl
  have hoff := extractState_hash_flag sampleTransfer false false none
    sampleTransferExtracted rfl
  exact ⟨hon.trans rfl, rfl, hoff.trans rfl⟩

/-- C7: every entry of the values array of any successful extraction carries
isValid true; no code path builds one with isValid false. -/
theorem extractState_values_all_valid
    (value : CallValue) (withHash withSignature : Bool) (callName : Option String)
    (e : Extracted)
    (h : extractState value withHash withSignature callName = Except.ok e) :
    e.values.all Value.isValid = true := by
  obtain ⟨m, hm⟩ := extractState_ok_meta value withHash withSignature callName e h
  rw [extractState_meta_eq value withHash withSignature callName m hm] at h
  injection h with h
  subst h
  simp [List.all_eq_true]

/-- Witness for C7 at the sample transfer extraction. -/
theorem extractState_values_all_valid_witness :
    sampleTransferExtracted.values.all Value.isValid = true :=
  extractState_values_all_valid sampleTransfer false false none
    sampleTransferExtracted rfl

/-- C8: extractState is deterministic — two calls on identical inputs yield
structurally equal Extracted records; being a pure Lean function of its four
arguments, any two successful results on the same input coincide. -/
theorem extractState_deterministic
    (value : CallValue) (withHash withSignature : Bool) (callName : Option String)
    (e1 e2 : Extracted)
    (h1 : extractState value withHash withSignature callName = Except.ok e1)
    (h2 : extractState value withHash withSignature callName = Except.ok e2) :
    e1 = e2 := by
  rw [h1] at h2
  exact Except.ok.inj h2

/-- Witness for C8 at the sample transfer extraction. -/
theorem extractState_deterministic_witness :
    sampleTransferExtracted = sampleTransferExtracted :=
  extractState_deterministic sampleTransfer false false none
    sampleTransferExtracted sampleTransferExtracted rfl rfl

/-- C10: any two registry call names produce the identical overrides result,
the single shared balanceCallsOverrides map, whatever the other arguments
are: the overrides field depends only on whether a registry match occurred,
not on which name matched. -/
theorem extractState_overrides_uniform
    (v1 v2 : CallValue) (wh1 ws1 wh2 ws2 : Bool) (c1 c2 : String)
    (e1 e2 : Extracted)
    (hc1 : c1 ∈ balanceCalls) (hc2 : c2 ∈ balanceCalls)
    (h1 : extractState v1 wh1 ws1 (some c1) = Except.ok e1)
    (h2 : extractState v2 wh2 ws2 (some c2) = Except.ok e2) :
    e1.overrides = e2.overrides ∧ e1.overrides = some balanceCallsOverrides := by
  have r1 := extractState_ok_overrides v1 wh1 ws1 (some c1) e1 h1
  have r2 := extractState_ok_overrides v2 wh2 ws2 (some c2) e2 h2
  have o1 : e1.overrides = some balanceCallsOverrides := by
    rw [r1]
    fin_cases hc1 <;> rfl
  have o2 : e2.overrides = some balanceCallsOverrides := by
    rw [r2]
    fin_cases hc2 <;> rfl
  exact ⟨o1.trans o2.symm, o1⟩

/-- Witness for C10 at two distinct registry names on distinct inputs. -/
theorem extractState_overrides_uniform_witness :
    sampleBalanceExtracted.overrides = sampleBalanceExtracted.overrides ∧
    sampleBalanceExtracted.overrides = some balanceCallsOverrides :=
  extractState_overrides_uniform sampleTransfer sampleTransfer false false false false
    "balances.transfer" "balances.forceTransfer"
    sampleBalanceExtracted sampleBalanceExtracted
    (by decide) (by decide) rfl rfl

/-- C9 counterexample: ProposedAction called with no proposal and the
supplied string identifier "" renders the bare no-details message, not the
claimed identifier-prefixed form — the source guards the prefix with JS
truthiness of stringId, and the empty string is falsy. -/
theorem proposedActionText_empty_string_id :
    proposedActionText none (some (IdNumber.str "")) = some noDetailsMessage ∧
    noDetailsMessage ≠ "#" ++ "" ++ ": " ++ noDetailsMessage :=
  ⟨rfl, by decide⟩

/-- C9 amended: with no proposal, the rendered text is the fixed
no-execution-details message, prefixed by the identifier when one is
supplied and renders as a non-empty string: a numeric idNumber is formatted
with thousands-grouping into the prefix, a non-empty string idNumber passes
through unchanged into the prefix, while an absent idNumber — or an
empty-string idNumber, which is falsy — yields exactly the fixed message
with no prefix. -/
theorem proposedActionText_no_proposal (idNumber : Option IdNumber) :
    (idNumber = none → proposedActionText none idNumber = some noDetailsMessage) ∧
    (∀ n, idNumber = some (IdNumber.num n) →
      proposedActionText none idNumber
        = some ("#" ++ formatNumber n ++ ": " ++ noDetailsMessage)) ∧
    (∀ s, s ≠ "" → idNumber = some (IdNumber.str s) →
      proposedActionText none idNumber
        = some ("#" ++ s ++ ": " ++ noDetailsMessage)) ∧
    (idNumber = some (IdNumber.str "") →
      proposedActionText none idNumber = some noDetailsMessage) := by
  refine ⟨?_, ?_, ?_, ?_⟩
  · rintro rfl
    rfl
  · rintro n rfl
    have hne : (formatNumber n != "") = true := bne_iff_ne.mpr (formatNumber_ne_empty n)
    simp [proposedActionText, stringIdOf, hne]
  · rintro s hs rfl
    have hne : (s != "") = true := bne_iff_ne.mpr hs
    simp [proposedActionText, stringIdOf, hne]
  · rintro rfl
    rfl

/-- Witness for C9 amended: the numeric identifier 1234 yields the grouped
prefixed text and the absent identifier yields the bare message. -/
theorem proposedActionText_no_proposal_witness :
    proposedActionText none (some (IdNumber.num 1234))
      = some ("#" ++ formatNumber 1234 ++ ": " ++ noDetailsMessage) ∧
    formatNumber 1234 = "1,234" ∧
    proposedActionText none none = some noDetailsMessage :=
  ⟨(proposedActionText_no_proposal (some (IdNumber.num 1234))).2.1 1234 rfl,
   rfl,
   (proposedActionText_no_proposal none).1 rfl⟩

end Apps
